import Mathlib

set_option maxRecDepth 100000

/-!
Verification development for the CodeBox index-and-search engine.

Shallow embedding of the core data model and operations:
  * `app/indexer/chunker.py`   (CodeChunk, CodeChunker)
  * `app/indexer/indexer.py`   (CoreIndexer.index, _find_files, _should_ignore)
  * `app/indexer/embeddings.py` (placeholder embedding fallback)
  * `app/indexer/auto_sync.py` (AutoSyncWorker._update_file)
  * `app/search/vector_db.py`  (schema, add_chunks, delete_by_file)
  * `app/search/hybrid.py`     (HybridSearch)
  * `app/utils/config.py`      (AppConfig.save_project_metadata, defaults)

Machine integers are modelled as Nat/Int, Python floats as exact rationals
(the properties proved are insensitive to float rounding), Python dicts as
association lists preserving insertion order, and the RNG behind
numpy.random.randn as an explicit stream of reals.
-/

/-- Splitting a character list at newline characters, mirroring Python
str.split with a single-character separator: n separators yield n+1 pieces,
so the result is never empty. -/
def splitLinesAux : List Char → List (List Char)
  | [] => [[]]
  | c :: cs =>
    if c = '\n' then [] :: splitLinesAux cs
    else
      match splitLinesAux cs with
      | [] => [[c]]
      | h :: t => (c :: h) :: t

/-- Python content.split over the newline character, as used by the chunker. -/
def splitLines (s : String) : List String :=
  (splitLinesAux s.toList).map (fun l => String.mk l)

/-- Python newline join, as used to rebuild chunk content from a line slice. -/
def joinLines (ls : List String) : String :=
  String.intercalate "\n" ls

/-- Whitespace for Python str.split() and str.strip() (ASCII fragment; the
strings under verification are ASCII). -/
def isPySpace (c : Char) : Bool :=
  c = ' ' ∨ c = '\t' ∨ c = '\n' ∨ c = '\r' ∨ c = '\x0b' ∨ c = '\x0c'

/-- Python str.strip(): drop whitespace from both ends. -/
def pyStrip (s : String) : String :=
  String.mk (((s.toList.dropWhile isPySpace).reverse.dropWhile isPySpace).reverse)

/-- Python str.lower() (ASCII fragment). -/
def charToLower (c : Char) : Char :=
  if 'A' ≤ c ∧ c ≤ 'Z' then Char.ofNat (c.toNat + 32) else c

/-- Python str.lower() over a string. -/
def strToLower (s : String) : String :=
  String.mk (s.toList.map charToLower)

theorem splitLinesAux_ne_nil (l : List Char) : splitLinesAux l ≠ [] := by
  induction l with
  | nil => simp [splitLinesAux]
  | cons c cs ih =>
    simp only [splitLinesAux]
    by_cases h : c = '\n'
    · simp [h]
    · simp only [h, if_false]
      cases hcs : splitLinesAux cs with
      | nil => simp
      | cons h t => simp

theorem splitLines_ne_nil (s : String) : splitLines s ≠ [] := by
  have h := splitLinesAux_ne_nil s.toList
  simp only [splitLines]
  intro hc
  exact h (List.map_eq_nil_iff.mp hc)

/-- A semantic node handed to the chunker by the parser adapter
(parser.py builds these dicts: type, name, start_line, end_line plus the
extracted metadata fields). Line numbers are Python ints, hence ℤ. -/
structure NodeInfo where
  type : String := "code"
  name : Option String := none
  startLine : ℤ := 0
  endLine : ℤ := 0
  signature : Option String := none
  parameters : Option String := none
  returnType : Option String := none
  docstring : Option String := none
  decorators : Option String := none
  parentScope : Option String := none
  fullPath : Option String := none
  scopeDepth : ℕ := 0
  calls : Option String := none
deriving DecidableEq, Repr

/-- chunker.py CodeChunk.  `sizeBytes` and `modifiedAt` are not constructor
fields in the source: indexer.py sets them as fresh attributes after
chunking, so they are modelled as Options defaulting to none. -/
structure CodeChunk where
  content : String
  filePath : String
  startLine : ℕ
  endLine : ℕ
  language : String
  chunkType : String := "code"
  nodeName : Option String := none
  signature : Option String := none
  parameters : Option String := none
  returnType : Option String := none
  docstring : Option String := none
  decorators : Option String := none
  imports : Option String := none
  parentScope : Option String := none
  fullPath : Option String := none
  scopeDepth : ℕ := 0
  calls : Option String := none
  sizeBytes : Option ℤ := none
  modifiedAt : Option String := none
deriving DecidableEq, Repr

/-- Loop body of chunker.py _sliding_window_chunk (lines 292-311), with the
line list passed directly (the source splits the content string; the two
views agree because split and join are mutually inverse on newline-free
pieces).  `fuel` bounds the recursion; each continuing step strictly
increases `i`, so fuel `total + 1` reproduces the source loop exactly. -/
def slidingGo (linesPerChunk overlapLines : ℕ) (lines : List String)
    (filePath language : String) (offset : ℕ) : ℕ → ℕ → List CodeChunk
  | 0, _ => []
  | fuel + 1, i =>
    if i < lines.length then
      let e := min (i + linesPerChunk) lines.length
      let chunk : CodeChunk :=
        { content := joinLines ((lines.drop i).take (e - i))
          filePath := filePath
          startLine := i + offset
          endLine := e - 1 + offset
          language := language
          chunkType := "code" }
      let next : ℤ := (i : ℤ) + linesPerChunk - overlapLines
      if next ≤ i then [chunk]
      else chunk :: slidingGo linesPerChunk overlapLines lines filePath language offset fuel next.toNat
    else []

/-- chunker.py _sliding_window_chunk.  avg_line_length and the two derived
window sizes are computed with exact rational arithmetic in place of Python
floats; int() on a nonnegative float is the floor. -/
def slidingWindowLines (chunkSize overlap : ℕ) (filePath language : String)
    (lines : List String) (offset : ℕ) : List CodeChunk :=
  let total := lines.length
  let avgLineLength : ℚ := ((lines.map String.length).sum : ℚ) / (max total 1 : ℕ)
  let linesPerChunk := max (Int.toNat ⌊(chunkSize : ℚ) / max avgLineLength 1⌋) 1
  let overlapLines := max (Int.toNat ⌊(overlap : ℚ) / max avgLineLength 1⌋) 0
  slidingGo linesPerChunk overlapLines lines filePath language offset (total + 1) 0

/-- A boundary-split piece chunk (chunker.py lines 234-246 and 252-264):
only type, name, signature, parent_scope, full_path, scope_depth are
inherited from the originating node. -/
def mkBoundaryChunk (node : NodeInfo) (filePath language content : String)
    (startLine endLine : ℕ) : CodeChunk :=
  { content := content
    filePath := filePath
    startLine := startLine
    endLine := endLine
    language := language
    chunkType := node.type
    nodeName := node.name
    signature := node.signature
    parentScope := node.parentScope
    fullPath := node.fullPath
    scopeDepth := node.scopeDepth }

/-- Loop body of chunker.py _split_at_logical_boundaries (lines 229-265):
`i` is the enumerate index, `curStart` the start of the piece being
accumulated, `cur` the accumulated lines, `total` the full line count of the
node content (the trailing chunk ends at offset + total - 1). -/
def splitBGo (chunkSize : ℕ) (node : NodeInfo) (filePath language : String)
    (offset total : ℕ) : ℕ → ℕ → List String → List String → List CodeChunk
  | _, curStart, cur, [] =>
    if cur.isEmpty then []
    else [mkBoundaryChunk node filePath language (joinLines cur)
            (offset + curStart) (offset + total - 1)]
  | i, curStart, cur, l :: rest =>
    let cur' := cur ++ [l]
    if pyStrip l = "" ∧ chunkSize ≤ (joinLines cur').length then
      mkBoundaryChunk node filePath language (joinLines cur') (offset + curStart) (offset + i)
        :: splitBGo chunkSize node filePath language offset total (i + 1) (i + 1) [] rest
    else splitBGo chunkSize node filePath language offset total (i + 1) curStart cur' rest

/-- chunker.py _split_at_logical_boundaries, on the node's line slice (the
source passes the joined string and re-splits it, which round-trips). -/
def splitAtLogicalBoundaries (chunkSize overlap : ℕ) (node : NodeInfo)
    (filePath language : String) (lines : List String) (offset : ℕ) : List CodeChunk :=
  let chunks := splitBGo chunkSize node filePath language offset lines.length 0 0 [] lines
  if chunks.isEmpty then slidingWindowLines chunkSize overlap filePath language lines offset
  else chunks

/-- Per-node work of chunker.py _semantic_chunk (lines 170-209): context
padding of 3 lines, the in-bounds guard, and the size-cap split. -/
def processNode (chunkSize overlap : ℕ) (filePath language : String)
    (lines : List String) (node : NodeInfo) : List CodeChunk :=
  let startN := (max 0 (node.startLine - 3)).toNat
  let endN := (min ((lines.length : ℤ) - 1) (node.endLine + 3)).toNat
  if startN < lines.length ∧ endN < lines.length then
    let slice := (lines.drop startN).take (endN + 1 - startN)
    let chunkContent := joinLines slice
    if chunkSize * 2 < chunkContent.length then
      splitAtLogicalBoundaries chunkSize overlap node filePath language slice startN
    else
      [{ content := chunkContent
         filePath := filePath
         startLine := startN
         endLine := endN
         language := language
         chunkType := node.type
         nodeName := node.name
         signature := node.signature
         parameters := node.parameters
         returnType := node.returnType
         docstring := node.docstring
         decorators := node.decorators
         parentScope := node.parentScope
         fullPath := node.fullPath
         scopeDepth := node.scopeDepth
         calls := node.calls }]
  else []

/-- chunker.py _semantic_chunk: all nodes in order, then the sliding-window
fallback when no chunk was produced. -/
def semanticChunk (chunkSize overlap : ℕ) (content filePath language : String)
    (nodes : List NodeInfo) : List CodeChunk :=
  let lines := splitLines content
  let chunks := nodes.flatMap (processNode chunkSize overlap filePath language lines)
  if chunks.isEmpty then slidingWindowLines chunkSize overlap filePath language lines 0
  else chunks

/-- chunker.py CodeChunker.chunk_code: semantic mode when the node list is
truthy (non-empty), else sliding window. -/
def chunkCode (chunkSize overlap : ℕ) (content filePath language : String)
    (nodes : List NodeInfo) : List CodeChunk :=
  if nodes.isEmpty then
    slidingWindowLines chunkSize overlap filePath language (splitLines content) 0
  else semanticChunk chunkSize overlap content filePath language nodes

/-- A column value in a store row or chunk dict (vector_db.py rows hold
strings, Python ints, and the float32 vector). -/
inductive Value where
  | str (s : String)
  | int (n : ℤ)
  | vec (v : List ℚ)
deriving DecidableEq, Repr

/-- chunker.py CodeChunk.to_dict (lines 47-66): the dict handed to
add_chunks.  Note it carries neither size_bytes nor modified_at. -/
def toDict (c : CodeChunk) : List (String × Value) :=
  [ ("content", .str c.content)
  , ("file_path", .str c.filePath)
  , ("start_line", .int c.startLine)
  , ("end_line", .int c.endLine)
  , ("language", .str c.language)
  , ("chunk_type", .str c.chunkType)
  , ("node_name", .str (c.nodeName.getD ""))
  , ("signature", .str (c.signature.getD ""))
  , ("parameters", .str (c.parameters.getD ""))
  , ("return_type", .str (c.returnType.getD ""))
  , ("docstring", .str (c.docstring.getD ""))
  , ("decorators", .str (c.decorators.getD ""))
  , ("imports", .str (c.imports.getD ""))
  , ("parent_scope", .str (c.parentScope.getD ""))
  , ("full_path", .str (c.fullPath.getD ""))
  , ("scope_depth", .int c.scopeDepth)
  , ("calls", .str (c.calls.getD "")) ]

/-- Dict lookup returning a string, defaulting to the empty string as
chunk.get(key, '') does (the directly indexed keys are always present in a
to_dict output, so one accessor covers both access styles). -/
def getStr (d : List (String × Value)) (k : String) : String :=
  match d.lookup k with
  | some (.str s) => s
  | _ => ""

/-- Dict lookup returning an int, defaulting to 0 (chunk.get('scope_depth', 0)). -/
def getInt (d : List (String × Value)) (k : String) : ℤ :=
  match d.lookup k with
  | some (.int n) => n
  | _ => 0

/-- vector_db.py add_chunks row construction (lines 145-165): the id is
file_path:start_line, and the row has exactly these 19 columns. -/
def buildRow (chunk : List (String × Value)) (vector : List ℚ) : List (String × Value) :=
  [ ("id", .str (getStr chunk "file_path" ++ ":" ++ toString (getInt chunk "start_line")))
  , ("content", .str (getStr chunk "content"))
  , ("file_path", .str (getStr chunk "file_path"))
  , ("start_line", .int (getInt chunk "start_line"))
  , ("end_line", .int (getInt chunk "end_line"))
  , ("language", .str (getStr chunk "language"))
  , ("chunk_type", .str (getStr chunk "chunk_type"))
  , ("node_name", .str (getStr chunk "node_name"))
  , ("signature", .str (getStr chunk "signature"))
  , ("parameters", .str (getStr chunk "parameters"))
  , ("return_type", .str (getStr chunk "return_type"))
  , ("docstring", .str (getStr chunk "docstring"))
  , ("decorators", .str (getStr chunk "decorators"))
  , ("imports", .str (getStr chunk "imports"))
  , ("parent_scope", .str (getStr chunk "parent_scope"))
  , ("full_path", .str (getStr chunk "full_path"))
  , ("scope_depth", .int (getInt chunk "scope_depth"))
  , ("calls", .str (getStr chunk "calls"))
  , ("vector", .vec vector) ]

/-- vector_db.py create_table Arrow schema field names, in order
(lines 48-68). -/
def createTableSchemaFields : List String :=
  [ "id", "content", "file_path", "start_line", "end_line", "language"
  , "chunk_type", "node_name", "signature", "parameters", "return_type"
  , "docstring", "decorators", "imports", "parent_scope", "full_path"
  , "scope_depth", "calls", "vector" ]

/-- The columnar store: committed rows plus whether the content FTS index
reflects them (create_fts_index with replace rebuilds it). -/
structure Store where
  rows : List (List (String × Value)) := []
  ftsFresh : Bool := true
deriving DecidableEq, Repr

/-- vector_db.py add_chunks: no-op on an empty batch, then append one row
per chunk; the FTS index is rebuilt only when update_fts is set (the
dimension-mismatch ValueError branch is not modelled: every claim below
exercises add_chunks with caller-matched dimensions). -/
def addChunksRows (db : Store) (chunks : List (List (String × Value)))
    (embeddings : List (List ℚ)) (updateFts : Bool) : Store :=
  if chunks.isEmpty ∨ embeddings.isEmpty then db
  else
    { rows := db.rows ++ (chunks.zip embeddings).map (fun p => buildRow p.1 p.2)
      ftsFresh := updateFts }

/-- vector_db.py delete_by_file: drop every row whose file_path equals the
argument (the quote-escaped SQL predicate denotes string equality), then
refresh the FTS index. -/
def deleteByFile (db : Store) (filePath : String) : Store :=
  { rows := db.rows.filter (fun row => getStr row "file_path" ≠ filePath)
    ftsFresh := true }

deriving instance DecidableEq for Except

/-- Parser adapter output consumed by the indexer: parse_file returns a dict
with language, nodes and imports, or None on parse failure. -/
structure ParseOut where
  language : String
  nodes : List NodeInfo := []
  imports : List String := []
deriving DecidableEq, Repr

/-- One file reached by the indexer walk, together with the outcome of the
exterior effects the loop performs on it: stat (size, mtime), the lossy
UTF-8 read (error message on IO failure), and the parse result. -/
structure SrcFile where
  relPath : String
  size : ℕ := 0
  modifiedAt : String := ""
  readResult : Except String String := .ok ""
  parseResult : Option ParseOut := none
deriving DecidableEq, Repr

/-- Configuration slice the indexing loop reads from AppConfig. -/
structure IndexerConfig where
  chunkSize : ℕ := 512
  chunkOverlap : ℕ := 50
  maxFileSize : ℕ := 1048576
  embeddingBatchSize : ℕ := 100
deriving DecidableEq, Repr

/-- Mutable state of the indexer.py per-file loop (lines 104-232): the
IndexingResult counters it updates, the chunk buffer, the running chunk
total, and the store. -/
structure LoopState where
  store : Store := {}
  buffer : List CodeChunk := []
  totalChunks : ℕ := 0
  indexedFiles : List String := []
  indexedCount : ℕ := 0
  failedFiles : List (String × String × String) := []
  failedCount : ℕ := 0
  skippedFiles : List String := []
  skippedCount : ℕ := 0
  languageBreakdown : List (String × ℕ) := []
  error : Option String := none
deriving DecidableEq, Repr

/-- language_breakdown update: result.language_breakdown[language] =
get(language, 0) + 1, insertion-ordered like a Python dict. -/
def bumpLang (m : List (String × ℕ)) (lang : String) : List (String × ℕ) :=
  match m.lookup lang with
  | some _ => m.map (fun p => if p.1 = lang then (p.1, p.2 + 1) else p)
  | none => m ++ [(lang, 1)]

/-- indexer.py batch commit (lines 194-209): embed the buffered chunk
texts, add them to the store with update_fts only on the last file's batch,
clear the buffer.  `embedFn` stands for EmbeddingGenerator.generate_embeddings. -/
def commitBatch (embedFn : List String → List (List ℚ)) (isLastBatch : Bool)
    (st : LoopState) : LoopState :=
  let texts := st.buffer.map (fun c => c.content)
  let embeddings := embedFn texts
  let dicts := st.buffer.map toDict
  { st with
    store := addChunksRows st.store dicts embeddings isLastBatch
    totalChunks := st.totalChunks + st.buffer.length
    buffer := [] }

/-- indexer.py per-file body (lines 118-232): size cap, lossy read, parse,
chunk, metadata propagation (size_bytes, modified_at, imports onto every
chunk), buffering, and the batch-size-triggered commit.  `i` is the file's
position and `nFiles` the total count (is_last_batch is i = nFiles - 1).
The PermissionError branch needs an OS-level fault distinct from the read
result and is not reachable in this model. -/
def stepFile (cfg : IndexerConfig) (embedFn : List String → List (List ℚ))
    (nFiles i : ℕ) (f : SrcFile) (st : LoopState) : LoopState :=
  if cfg.maxFileSize < f.size then
    { st with skippedFiles := st.skippedFiles ++ [f.relPath]
              skippedCount := st.skippedCount + 1 }
  else
    match f.readResult with
    | .error msg =>
      { st with failedFiles := st.failedFiles ++ [(f.relPath, "encoding_error", msg)]
                failedCount := st.failedCount + 1 }
    | .ok content =>
      match f.parseResult with
      | none =>
        { st with
            failedFiles := st.failedFiles ++ [(f.relPath, "parse_error", "Failed to parse file")]
            failedCount := st.failedCount + 1 }
      | some pr =>
        let chunks := chunkCode cfg.chunkSize cfg.chunkOverlap content f.relPath pr.language pr.nodes
        if chunks.isEmpty then
          { st with skippedFiles := st.skippedFiles ++ [f.relPath]
                    skippedCount := st.skippedCount + 1 }
        else
          let importsStr := String.intercalate "," pr.imports
          let chunks := chunks.map (fun c =>
            { c with sizeBytes := some (f.size : ℤ)
                     modifiedAt := some f.modifiedAt
                     imports := some importsStr })
          let st :=
            { st with buffer := st.buffer ++ chunks
                      languageBreakdown := bumpLang st.languageBreakdown pr.language
                      indexedFiles := st.indexedFiles ++ [f.relPath]
                      indexedCount := st.indexedCount + 1 }
          if cfg.embeddingBatchSize ≤ st.buffer.length then
            commitBatch embedFn (decide (i = nFiles - 1)) st
          else st

/-- The indexing loop without cancellation: process the files in order
starting at position `i`. -/
def runSteps (cfg : IndexerConfig) (embedFn : List String → List (List ℚ))
    (nFiles : ℕ) : ℕ → List SrcFile → LoopState → LoopState
  | _, [], st => st
  | i, f :: rest, st => runSteps cfg embedFn nFiles (i + 1) rest (stepFile cfg embedFn nFiles i f st)

/-- indexer.py loop with the cancellation poll (lines 110-114): before each
file, should_cancel is consulted; on true the loop sets
error = "Cancelled by user" and returns at once.  `cancel i` is the
callback's answer when polled before file `i`. -/
def indexGo (cfg : IndexerConfig) (embedFn : List String → List (List ℚ))
    (cancel : ℕ → Bool) (nFiles : ℕ) : ℕ → List SrcFile → LoopState → LoopState × Bool
  | _, [], st => (st, false)
  | i, f :: rest, st =>
    if cancel i then ({ st with error := some "Cancelled by user" }, true)
    else indexGo cfg embedFn cancel nFiles (i + 1) rest (stepFile cfg embedFn nFiles i f st)

/-- indexer.py IndexingResult, restricted to the engine-visible fields the
claims mention (the timing fields and model/location strings are dropped). -/
structure IndexingResult where
  success : Bool := false
  totalFiles : ℕ := 0
  totalChunks : ℕ := 0
  error : Option String := none
  indexedFiles : List String := []
  indexedCount : ℕ := 0
  failedFiles : List (String × String × String) := []
  failedCount : ℕ := 0
  skippedFiles : List String := []
  skippedCount : ℕ := 0
  languageBreakdown : List (String × ℕ) := []
deriving DecidableEq, Repr

/-- The result returned on the cancellation path (indexer.py lines 111-114):
success is still False from initialization, error was just set, and
total_chunks is still 0 because it is only assigned in the success epilogue
(line 256) — the committed batches are not reflected in it. -/
def mkCancelResult (nFiles : ℕ) (st : LoopState) : IndexingResult :=
  { success := false
    totalFiles := nFiles
    totalChunks := 0
    error := st.error
    indexedFiles := st.indexedFiles
    indexedCount := st.indexedCount
    failedFiles := st.failedFiles
    failedCount := st.failedCount
    skippedFiles := st.skippedFiles
    skippedCount := st.skippedCount
    languageBreakdown := st.languageBreakdown }

/-- The result returned on the normal path (indexer.py lines 234-267):
flush the final buffer with update_fts, then success and the totals. -/
def mkSuccessResult (embedFn : List String → List (List ℚ)) (nFiles : ℕ)
    (st : LoopState) : IndexingResult :=
  let st := if st.buffer.isEmpty then st else commitBatch embedFn true st
  { success := true
    totalFiles := nFiles
    totalChunks := st.totalChunks
    error := st.error
    indexedFiles := st.indexedFiles
    indexedCount := st.indexedCount
    failedFiles := st.failedFiles
    failedCount := st.failedCount
    skippedFiles := st.skippedFiles
    skippedCount := st.skippedCount
    languageBreakdown := st.languageBreakdown }

/-- indexer.py CoreIndexer.index, from the file enumeration on (the store
and project-directory initialisation is filesystem setup with no bearing on
the claims; a missing path or empty walk returns early as in lines 70-101). -/
def indexFiles (cfg : IndexerConfig) (embedFn : List String → List (List ℚ))
    (cancel : ℕ → Bool) (files : List SrcFile) : IndexingResult :=
  if files.isEmpty then { success := true }
  else
    let nFiles := files.length
    let (st, cancelled) := indexGo cfg embedFn cancel nFiles 0 files {}
    if cancelled then mkCancelResult nFiles st
    else mkSuccessResult embedFn nFiles st

/-- The filesystem view auto_sync.py _update_file takes of one path:
whether it exists, its stat size, the lossy read, and the parse result. -/
structure FsView where
  present : Bool := true
  size : ℕ := 0
  readResult : Except String String := .ok ""
  parseResult : Option ParseOut := none
deriving DecidableEq, Repr

/-- auto_sync.py AutoSyncWorker._update_file (lines 188-233): deletions and
vanished files clear the file's rows; an oversized file returns 0 with no
store access; otherwise read, parse, chunk (errors raised to the caller),
then delete-then-add under the writer lock.  Auto-sync does not propagate
size_bytes, modified_at or imports onto chunks. -/
def updateFile (cfg : IndexerConfig) (embedFn : List String → List (List ℚ))
    (db : Store) (relPath changeType : String) (f : FsView) :
    Except String (Store × ℕ) :=
  if changeType = "deleted" then .ok (deleteByFile db relPath, 0)
  else if ¬ f.present then .ok (deleteByFile db relPath, 0)
  else if cfg.maxFileSize < f.size then .ok (db, 0)
  else
    match f.readResult with
    | .error msg => .error ("Failed to read file: " ++ msg)
    | .ok content =>
      match f.parseResult with
      | none => .error "Parsing failed"
      | some pr =>
        let chunks := chunkCode cfg.chunkSize cfg.chunkOverlap content relPath pr.language pr.nodes
        if chunks.isEmpty then .ok (deleteByFile db relPath, 0)
        else
          let embeddings := embedFn (chunks.map (fun c => c.content))
          let dicts := chunks.map toDict
          let db := deleteByFile db relPath
          let db := addChunksRows db dicts embeddings true
          .ok (db, chunks.length)

/-- The Python regex character class for a-z. -/
def isAsciiLower (c : Char) : Bool := 'a' ≤ c ∧ c ≤ 'z'

/-- The Python regex character class for A-Z. -/
def isAsciiUpper (c : Char) : Bool := 'A' ≤ c ∧ c ≤ 'Z'

/-- A regex word character (ASCII fragment of Python's \w: letters, digits,
underscore; the queries under verification are ASCII). -/
def isWordChar (c : Char) : Bool := c.isAlphanum ∨ c = '_'

/-- re.search of [a-z][A-Z] over the raw query (hybrid.py line 110): some
lowercase letter immediately followed by an uppercase one. -/
def hasCamelPair : List Char → Bool
  | a :: b :: rest => (isAsciiLower a ∧ isAsciiUpper b) ∨ hasCamelPair (b :: rest)
  | _ => false

/-- re.search of a word-chars underscore word-chars pattern (hybrid.py
line 111): since each side needs length ≥ 1, the regex matches exactly when
some word char, a literal underscore, and a word char are adjacent. -/
def hasSnakeTriple : List Char → Bool
  | a :: b :: c :: rest =>
    (isWordChar a ∧ b = '_' ∧ isWordChar c) ∨ hasSnakeTriple (b :: c :: rest)
  | _ => false

/-- Maximal runs of characters satisfying `keep`, dropping the rest: the
common shape of str.split() (keep = not whitespace) and re.findall of \w+
(keep = word chars).  `cur` is the run being accumulated, in reverse. -/
def runsByAux (keep : Char → Bool) : List Char → List Char → List (List Char)
  | cur, [] => if cur.isEmpty then [] else [cur.reverse]
  | cur, c :: cs =>
    if keep c then runsByAux keep (c :: cur) cs
    else if cur.isEmpty then runsByAux keep [] cs
    else cur.reverse :: runsByAux keep [] cs

/-- Python str.split() with no separator. -/
def pySplitWs (s : String) : List String :=
  (runsByAux (fun c => ¬ isPySpace c) [] s.toList).map String.mk

/-- re.findall of \w+ (hybrid.py line 137). -/
def wordTokens (s : String) : List String :=
  (runsByAux isWordChar [] s.toList).map String.mk

/-- Python substring membership: needle in hay. -/
def strContains (hay needle : String) : Bool :=
  decide (needle.toList <:+: hay.toList)

/-- hybrid.py HybridSearch._adaptive_rrf_k (lines 97-121): 20 on a
camelCase or snake_case pattern, else 30 on fewer than five
whitespace-separated words, else the instance rrf_k. -/
def adaptiveRrfK (rrfK : ℕ) (query : String) : ℕ :=
  let words := pySplitWs query
  let hasCamelCase := hasCamelPair query.toList
  let hasSnakeCase := hasSnakeTriple query.toList
  if hasCamelCase ∨ hasSnakeCase then 20
  else if words.length < 5 then 30
  else rrfK

/-- config.py search_settings rrf_k default (lines 191 and 285): 60. -/
def defaultRrfK : ℕ := 60

/-- A search-result dict flowing between vector_db.py and hybrid.py.  Rows
produced by the store always carry file_path; id can be absent in the
defensive result.get('id', ...) fallback, hence the Option.  The trailing
Option fields are the keys hybrid.py attaches after fusion. -/
structure SearchResult where
  id : Option String := none
  filePath : String := ""
  content : String := ""
  nodeName : String := ""
  signature : String := ""
  chunkType : String := ""
  docstring : String := ""
  scopeDepth : ℕ := 0
  searchMode : Option String := none
  symbolBoost : Option ℚ := none
  rrfScore : Option ℚ := none
  adaptiveK : Option ℕ := none
  crossEncoderScore : Option ℚ := none
deriving DecidableEq, Repr

/-- hybrid.py line 182: result.get('id', result.get('file_path', '')). -/
def docId (r : SearchResult) : String := r.id.getD r.filePath

/-- hybrid.py HybridSearch._calculate_symbol_boost (lines 123-167), with
exact rationals for the float literals. -/
def calculateSymbolBoost (r : SearchResult) (query : String) : ℚ :=
  let queryTerms := (wordTokens (strToLower query)).dedup
  let nodeName := strToLower r.nodeName
  let b1 : ℚ := if nodeName ≠ "" ∧ queryTerms.any (fun t => strContains nodeName t) then 3/10 else 0
  let signature := strToLower r.signature
  let b2 : ℚ := if signature ≠ "" ∧ queryTerms.any (fun t => strContains signature t) then 1/5 else 0
  let b3 : ℚ :=
    if r.chunkType ∈ ["function_definition", "class_definition",
                      "method_definition", "interface_declaration"] then 3/20 else 0
  let b4 : ℚ := if r.docstring ≠ "" ∧ 0 < (pyStrip r.docstring).length then 1/10 else 0
  let b5 : ℚ := if r.scopeDepth = 0 then 1/20 else -((1:ℚ)/20) * r.scopeDepth
  b1 + b2 + b3 + b4 + b5

/-- The base RRF score of one list appearance (hybrid.py line 185):
1 / (adaptive_k + rank). -/
def rrfContribution (k : ℕ) (rank : ℕ) : ℚ := 1 / ((k : ℚ) + rank)

/-- The per-document accumulation hybrid.py performs across the result
lists (lines 180-198): the sum of 1/(K + rank) over the appearances, plus
the symbol boost added afterwards. -/
def fusedDocScore (k : ℕ) (ranks : List ℕ) (boost : ℚ) : ℚ :=
  (ranks.map (rrfContribution k)).sum + boost

/-- One entry of the rrf_scores dict: running score and the first-seen
result dict. -/
structure RRFItem where
  score : ℚ
  result : SearchResult
deriving DecidableEq, Repr

/-- rrf_scores update for one appearance (hybrid.py lines 187-193): create
the entry at score 0 on first sight (keeping that result dict), then add
the contribution.  Insertion order is preserved as in a Python dict. -/
def addScore (m : List (String × RRFItem)) (key : String) (score : ℚ)
    (r : SearchResult) : List (String × RRFItem) :=
  if (m.lookup key).isSome then
    m.map (fun p => if p.1 = key then (p.1, { p.2 with score := p.2.score + score }) else p)
  else m ++ [(key, { score := score, result := r })]

/-- Accumulate one ranked result list (hybrid.py lines 180-193), ranks
starting at 1. -/
def addList (k : ℕ) (m : List (String × RRFItem)) (rl : List SearchResult) :
    List (String × RRFItem) :=
  (rl.enum).foldl (fun m p => addScore m (docId p.2) (rrfContribution k (p.1 + 1)) p.2) m

/-- Stable descending insertion by a rational key: an element goes after
every earlier element with a greater-or-equal key, which is the tie
behaviour of Python sorted(..., reverse=True). -/
def insertDescBy (key : α → ℚ) (x : α) : List α → List α
  | [] => [x]
  | y :: ys => if key x ≤ key y then y :: insertDescBy key x ys else x :: y :: ys

/-- Python sorted(items, key, reverse=True): stable descending sort. -/
def sortDescBy (key : α → ℚ) (l : List α) : List α :=
  l.foldl (fun acc x => insertDescBy key x acc) []

/-- hybrid.py HybridSearch._rrf_fusion (lines 169-214). -/
def rrfFusion (rrfK : ℕ) (query : String) (resultLists : List (List SearchResult))
    (limit : ℕ) : List SearchResult :=
  let k := adaptiveRrfK rrfK query
  let rrfScores := resultLists.foldl (addList k) []
  let boosted := rrfScores.map (fun p =>
    let b := calculateSymbolBoost p.2.result query
    ({ score := p.2.score + b
       result := { p.2.result with symbolBoost := some b } } : RRFItem))
  let sorted := sortDescBy (fun it => it.score) boosted
  (sorted.take limit).map (fun it =>
    { it.result with rrfScore := some it.score, adaptiveK := some k })

/-- reranker.py CrossEncoderReranker.rerank (lines 93-159): identity when
disabled, on empty input, or when the cross-encoder backend is unavailable
(modelScore = none); otherwise score the top min(top_k, len) results, sort
that slice by score descending (stable), and append the rest unchanged. -/
def rerank (enabled : Bool) (modelScore : Option (String → String → ℚ))
    (topK : ℕ) (query : String) (results : List SearchResult) : List SearchResult :=
  if ¬ enabled then results
  else if results.isEmpty then results
  else
    match modelScore with
    | none => results
    | some f =>
      let k := min topK results.length
      let toRerank := (results.take k).map (fun r =>
        { r with crossEncoderScore := some (f query r.content) })
      let rest := results.drop k
      sortDescBy (fun r => r.crossEncoderScore.getD 0) toRerank ++ rest

/-- hybrid.py line 75: fetch_limit = int(limit * 1.5).  The float product
is exact and int() truncates toward zero. -/
def hybridFetchLimit (limit : ℕ) : ℕ :=
  (Int.floor ((limit : ℚ) * (3 / 2))).toNat

/-- hybrid.py HybridSearch._hybrid_search (lines 69-95): fetch from both
searches at the fetch limit (each tagging its own mode as _vector_search
and _keyword_search do), fuse, reranker pass, tag hybrid.  The vector /
keyword backends (store queries plus query embedding) enter as functions of
the requested limit; rerank_time_ms is wall-clock and not modelled. -/
def hybridSearch (rrfK : ℕ) (rerankEnabled : Bool)
    (modelScore : Option (String → String → ℚ)) (rerankTopK : ℕ)
    (vectorSearchFn keywordSearchFn : ℕ → List SearchResult)
    (query : String) (limit : ℕ) : List SearchResult :=
  let fetchLimit := hybridFetchLimit limit
  let vectorResults := (vectorSearchFn fetchLimit).map (fun r => { r with searchMode := some "vector" })
  let keywordResults := (keywordSearchFn fetchLimit).map (fun r => { r with searchMode := some "keyword" })
  let fused := rrfFusion rrfK query [vectorResults, keywordResults] limit
  let reranked := rerank rerankEnabled modelScore rerankTopK query fused
  reranked.map (fun r => { r with searchMode := some "hybrid" })

/-- A filesystem side effect of config.py, for stating write-atomicity. -/
inductive FsOp where
  | mkdirP (path : String)
  | writeFile (path : String) (data : String)
  | rename (src dst : String)
deriving DecidableEq, Repr

/-- Whether an op is a rename. -/
def FsOp.isRename : FsOp → Bool
  | .rename _ _ => true
  | _ => false

/-- config.py AppConfig.save_project_metadata (lines 131-141), as the exact
sequence of filesystem operations it performs: mkdir with parents, then one
open-for-write of metadata.json itself with the serialized payload
(json.dump is the opaque `payload`).  No temporary file, no rename. -/
def saveProjectMetadataOps (projectDir : String) (payload : String) : List FsOp :=
  [ FsOp.mkdirP projectDir
  , FsOp.writeFile (projectDir ++ "/metadata.json") payload ]

/-- The claim's notion of an atomic metadata write: some temporary path
distinct from the target is written first and later renamed onto the
target, and the target itself is never opened for direct write. -/
def writesViaTempRename (ops : List FsOp) (target : String) : Prop :=
  (∃ (tmp data : String) (i j : ℕ), tmp ≠ target ∧ i < j ∧
    ops[i]? = some (FsOp.writeFile tmp data) ∧ ops[j]? = some (FsOp.rename tmp target)) ∧
  (∀ data, FsOp.writeFile target data ∉ ops)

/-- Generic single-character splitter (same recursion as splitLinesAux),
used for path components. -/
def splitSepAux (sep : Char) : List Char → List (List Char)
  | [] => [[]]
  | c :: cs =>
    if c = sep then [] :: splitSepAux sep cs
    else
      match splitSepAux sep cs with
      | [] => [[c]]
      | h :: t => (c :: h) :: t

/-- Slash-separated components of a path string. -/
def pathComponents (p : String) : List String :=
  (splitSepAux '/' p.toList).map String.mk

/-- pathlib PurePath.suffix: in the last component, take from the last dot
when that dot is neither the first nor the last character, else empty. -/
def pySuffix (p : String) : String :=
  let name := ((pathComponents p).getLastD "").toList
  match ((List.range name.length).filter (fun i => name[i]? = some '.')).getLast? with
  | some i => if 0 < i ∧ i < name.length - 1 then String.mk (name.drop i) else ""
  | none => ""

/-- indexer.py CoreIndexer._should_ignore (lines 293-298): any configured
pattern occurring as a substring of the path string. -/
def shouldIgnorePath (patterns : List String) (p : String) : Bool :=
  patterns.any (fun pat => strContains p pat)

/-- indexer.py CoreIndexer._find_files (lines 275-291) over an abstract
directory walk: the rglob enumeration enters as the path list plus an
is-file predicate, and the parser's get_all_supported_extensions as the
supported-suffix list. -/
def findFiles (patterns supportedExts : List String) (isFile : String → Bool)
    (paths : List String) : List String :=
  paths.filter (fun p =>
    isFile p ∧ ¬ shouldIgnorePath patterns p ∧ supportedExts.contains (strToLower (pySuffix p)))

/-- config.py default ignore path_blacklist (lines 363-375). -/
def defaultPathBlacklist : List String :=
  [ "node_modules", "__pycache__", "venv", "env", "dist", "build"
  , "migrations", "test_data", "vendor", "coverage", "htmlcov" ]

/-- config.py default ignore extension_blacklist (lines 354-362). -/
def defaultExtensionBlacklist : List String :=
  [ ".zip", ".tar", ".gz", ".rar", ".7z"
  , ".jpg", ".jpeg", ".png", ".gif", ".svg", ".ico", ".webp"
  , ".mp4", ".avi", ".mkv", ".mov", ".wmv", ".flv"
  , ".mp3", ".wav", ".flac", ".aac", ".ogg"
  , ".pdf", ".doc", ".docx", ".xls", ".xlsx", ".ppt", ".pptx"
  , ".exe", ".dll", ".so", ".dylib", ".bin"
  , ".lock", ".log", ".tmp", ".cache", ".swp" ]

/-- config.py _load_base_config line 255: DEFAULT_IGNORE_PATTERNS is the
path blacklist followed by the extension blacklist. -/
def defaultIgnorePatterns : List String :=
  defaultPathBlacklist ++ defaultExtensionBlacklist

/-- Squared Euclidean norm of a row. -/
def sumSq (v : List ℝ) : ℝ := (v.map (fun x => x ^ 2)).sum

/-- embeddings.py lines 140-142: divide each row by its L2 norm, with
norms of 0 replaced by 1 (np.where). -/
noncomputable def normalizeRow (v : List ℝ) : List ℝ :=
  let n := Real.sqrt (sumSq v)
  let d := if n = 0 then 1 else n
  v.map (fun x => x / d)

/-- embeddings.py _generate_placeholder_embeddings (lines 137-142):
count × dim draws from the RNG (np.random.randn), rows normalized.  `draw`
is the matrix of values the global RNG produces for this call. -/
noncomputable def placeholderEmbeddings (draw : ℕ → ℕ → ℝ) (count dim : ℕ) :
    List (List ℝ) :=
  (List.range count).map (fun i => normalizeRow ((List.range dim).map (fun j => draw i j)))

/-- embeddings.py generate_embeddings when the backend is unavailable
(model is None, lines 108-112): empty input short-circuits, otherwise the
placeholder path runs.  np.random.randn reads and advances the hidden
global RNG state, modelled as a stream position `pos` that each call
returns advanced by the count × dim values it consumed. -/
noncomputable def generateEmbeddingsNoModel (stream : ℕ → ℝ) (pos : ℕ)
    (texts : List String) (dim : ℕ) : List (List ℝ) × ℕ :=
  if texts.isEmpty then ([], pos)
  else
    (placeholderEmbeddings (fun i j => stream (pos + i * dim + j)) texts.length dim,
     pos + texts.length * dim)

/-- A concrete chunk as the indexer buffers it just before persisting:
metadata set, size_bytes and modified_at attributes populated. -/
def c2SampleChunk : CodeChunk :=
  { content := "def foo():\n    return 1"
    filePath := "a.py"
    startLine := 0
    endLine := 1
    language := "python"
    chunkType := "function_definition"
    nodeName := some "foo"
    imports := some ""
    sizeBytes := some 24
    modifiedAt := some "2024-01-01T00:00:00" }

/-- C2: even for a chunk whose size_bytes and modified_at attributes were
populated by the indexer, neither the dict produced by to_dict, nor the row
built by add_chunks from it, nor the Arrow schema of create_table contains
a size_bytes or modified_at column — the two fields are silently dropped at
persistence, contradicting the documented schema and the reads in
cli/handler.py. -/
theorem persisted_rows_lack_size_bytes_and_modified_at :
    "size_bytes" ∉ (toDict c2SampleChunk).map Prod.fst ∧
    "modified_at" ∉ (toDict c2SampleChunk).map Prod.fst ∧
    "size_bytes" ∉ createTableSchemaFields ∧
    "modified_at" ∉ createTableSchemaFields ∧
    "size_bytes" ∉ (buildRow (toDict c2SampleChunk) [1, 0]).map Prod.fst ∧
    "modified_at" ∉ (buildRow (toDict c2SampleChunk) [1, 0]).map Prod.fst := by
  decide

/-- C3 counterexample: at a concrete project directory and payload,
save_project_metadata performs no temp-then-rename write — it contains no
rename at all and it opens metadata.json itself for writing — so the claim
of atomic write-temp-then-rename fails. -/
theorem save_metadata_not_atomic :
    ¬ writesViaTempRename (saveProjectMetadataOps "home/projects/abc123" "\x7b\x7d")
        ("home/projects/abc123" ++ "/metadata.json") ∧
    (saveProjectMetadataOps "home/projects/abc123" "\x7b\x7d").filter
      (fun op => op.isRename) = [] := by
  constructor
  · intro h
    exact h.2 "\x7b\x7d" (by simp [saveProjectMetadataOps])
  · decide

/-- C3 amended: save_project_metadata writes metadata.json directly in
place — mkdir of the project directory followed by a single open-for-write
of the target itself, with no temporary file and no rename step, so an
interrupted write can leave a partially written metadata.json. -/
theorem save_metadata_direct_write (projectDir payload : String) :
    saveProjectMetadataOps projectDir payload =
      [FsOp.mkdirP projectDir,
       FsOp.writeFile (projectDir ++ "/metadata.json") payload] ∧
    (saveProjectMetadataOps projectDir payload).filter (fun op => op.isRename) = [] := by
  exact ⟨rfl, rfl⟩

/-- C4 counterexample: at limit = 1 the hybrid fetch limit is int(1.5) = 1,
whereas the ceiling of 1.5 × 1 is 2, so hybrid search does not request the
ceiling of 1.5 × limit. -/
theorem hybrid_fetch_limit_not_ceiling :
    hybridFetchLimit 1 = 1 ∧
    (Int.ceil ((1 : ℚ) * (3 / 2))).toNat = 2 ∧
    hybridFetchLimit 1 ≠ (Int.ceil ((1 : ℚ) * (3 / 2))).toNat := by
  have h1 : hybridFetchLimit 1 = 1 := by
    unfold hybridFetchLimit
    norm_num
  have h2 : (Int.ceil ((1 : ℚ) * (3 / 2))).toNat = 2 := by
    have hc : Int.ceil ((1 : ℚ) * (3 / 2)) = (2 : ℤ) := by
      rw [Int.ceil_eq_iff]
      norm_num
    rw [hc]
    rfl
  exact ⟨h1, h2, by rw [h1, h2]; decide⟩

/-- C4 amended: for every limit, hybrid search requests exactly the floor
of 1.5 × limit (that is, 3·limit / 2 rounded down) results from each of the
vector and the keyword search before fusing them. -/
theorem hybrid_fetch_limit_floor (rrfK rerankTopK limit : ℕ) (rerankEnabled : Bool)
    (modelScore : Option (String → String → ℚ))
    (vectorSearchFn keywordSearchFn : ℕ → List SearchResult) (query : String) :
    hybridFetchLimit limit = 3 * limit / 2 ∧
    hybridSearch rrfK rerankEnabled modelScore rerankTopK vectorSearchFn keywordSearchFn
        query limit =
      (rerank rerankEnabled modelScore rerankTopK query
        (rrfFusion rrfK query
          [(vectorSearchFn (3 * limit / 2)).map (fun r => { r with searchMode := some "vector" }),
           (keywordSearchFn (3 * limit / 2)).map (fun r => { r with searchMode := some "keyword" })]
          limit)).map (fun r => { r with searchMode := some "hybrid" }) := by
  have hfl : hybridFetchLimit limit = 3 * limit / 2 := by
    unfold hybridFetchLimit
    have hq : (limit : ℚ) * (3 / 2) = ((3 * limit : ℕ) : ℚ) / ((2 : ℕ) : ℚ) := by
      push_cast
      ring
    rw [hq, Int.floor_toNat, Nat.floor_div_nat, Nat.floor_natCast]
  refine ⟨hfl, ?_⟩
  unfold hybridSearch
  rw [hfl]

/-- C5 counterexample: with the default ignore patterns from config.py and
a supported-extension set containing .py, _find_files returns a path one of
whose components is ".github" — a dot-component of length greater than one —
so the walker does not implement the claimed dotfile/hidden-directory skip. -/
theorem find_files_keeps_hidden_dir :
    "/proj/.github/ci.py" ∈
      findFiles defaultIgnorePatterns [".py"] (fun _ => true) ["/proj/.github/ci.py"] ∧
    ".github" ∈ pathComponents "/proj/.github/ci.py" ∧
    ".github".toList.head? = some '.' ∧
    1 < ".github".length := by
  refine ⟨by decide, by decide, by decide, by decide⟩

/-- C5 amended: _find_files returns exactly the regular files whose path
string contains none of the configured ignore patterns (path-blacklist
segments and extension-blacklist strings alike, matched as substrings) and
whose pathlib suffix, lowercased, is in the parser-supported extension set;
it applies no dotfile/hidden-component rule. -/
theorem find_files_characterization (patterns supportedExts : List String)
    (isFile : String → Bool) (paths : List String) (p : String) :
    p ∈ findFiles patterns supportedExts isFile paths ↔
      p ∈ paths ∧ isFile p = true ∧ shouldIgnorePath patterns p = false ∧
        strToLower (pySuffix p) ∈ supportedExts := by
  simp [findFiles, List.mem_filter, and_assoc]

/-- C10: during auto-sync reconciliation of a created or modified file that
still exists but whose size exceeds max_file_size, _update_file returns 0
and the store is returned untouched — no delete_by_file and no add_chunks —
so the previously indexed chunks of that file stay live. -/
theorem update_file_oversized_is_frame (cfg : IndexerConfig)
    (embedFn : List String → List (List ℚ)) (db : Store) (relPath changeType : String)
    (f : FsView) (h1 : changeType ≠ "deleted") (h2 : f.present = true)
    (h3 : cfg.maxFileSize < f.size) :
    updateFile cfg embedFn db relPath changeType f = .ok (db, 0) := by
  simp [updateFile, h1, h2, h3]

/-- C10 witness: a modified 2 MB file against the default 1 MB cap, with a
nonempty store left exactly as it was. -/
theorem update_file_oversized_is_frame_witness :
    ("modified" : String) ≠ "deleted" ∧
    (({ present := true, size := 2097153 } : FsView)).present = true ∧
    ({} : IndexerConfig).maxFileSize < 2097153 ∧
    updateFile {} (fun _ => []) { rows := [[("file_path", Value.str "a.py")]] } "a.py"
        "modified" { present := true, size := 2097153 } =
      .ok ({ rows := [[("file_path", Value.str "a.py")]] }, 0) :=
  ⟨by decide, rfl, by decide,
    update_file_oversized_is_frame {} (fun _ => []) _ "a.py" "modified"
      { present := true, size := 2097153 } (by decide) rfl (by decide)⟩

/-- C7: in RRF fusion with any positive constant K, a document accumulated
from both lists at ranks r1 and r2 scores strictly higher than an otherwise
identical document (same boost) accumulated from just one list at rank
max(r1, r2). -/
theorem rrf_both_lists_beats_single (k r1 r2 : ℕ) (boost : ℚ) (hk : 0 < k) :
    fusedDocScore k [max r1 r2] boost < fusedDocScore k [r1, r2] boost := by
  have hkq : (0 : ℚ) < (k : ℚ) := by exact_mod_cast hk
  have hpos : ∀ r : ℕ, (0 : ℚ) < rrfContribution k r := by
    intro r
    have : (0 : ℚ) < (k : ℚ) + r := by positivity
    simpa [rrfContribution] using one_div_pos.mpr this
  simp only [fusedDocScore, List.map_cons, List.map_nil, List.sum_cons, List.sum_nil,
    add_zero]
  rcases Nat.le_total r1 r2 with h | h
  · rw [max_eq_right h]
    have := hpos r1
    linarith
  · rw [max_eq_left h]
    have := hpos r2
    linarith

/-- C7 witness: K = 60, ranks 1 and 2, the 0.35 boost of a top-level
matching function chunk. -/
theorem rrf_both_lists_beats_single_witness :
    0 < 60 ∧
    fusedDocScore 60 [max 1 2] (7 / 20) < fusedDocScore 60 [1, 2] (7 / 20) :=
  ⟨by decide, rrf_both_lists_beats_single 60 1 2 (7 / 20) (by decide)⟩

theorem mem_insertDescBy {α : Type} (key : α → ℚ) (x z : α) :
    ∀ l : List α, z ∈ insertDescBy key x l → z = x ∨ z ∈ l := by
  intro l
  induction l with
  | nil =>
    intro h
    simp [insertDescBy] at h
    exact Or.inl h
  | cons y ys ih =>
    intro h
    simp only [insertDescBy] at h
    by_cases hc : key x ≤ key y
    · simp only [hc, if_true, List.mem_cons] at h
      rcases h with h | h
      · exact Or.inr (by simp [h])
      · rcases ih h with h | h
        · exact Or.inl h
        · exact Or.inr (by simp [h])
    · simp only [hc, if_false, List.mem_cons] at h
      rcases h with h | h | h
      · exact Or.inl h
      · exact Or.inr (by simp [h])
      · exact Or.inr (List.mem_cons_of_mem _ h)

theorem mem_foldl_insertDescBy {α : Type} (key : α → ℚ) (z : α) :
    ∀ (l acc : List α), z ∈ List.foldl (fun acc x => insertDescBy key x acc) acc l →
      z ∈ acc ∨ z ∈ l := by
  intro l
  induction l with
  | nil =>
    intro acc h
    exact Or.inl h
  | cons x xs ih =>
    intro acc h
    simp only [List.foldl_cons] at h
    rcases ih (insertDescBy key x acc) h with h | h
    · rcases mem_insertDescBy key x z acc h with h | h
      · exact Or.inr (by simp [h])
      · exact Or.inl h
    · exact Or.inr (by simp [h])

theorem mem_sortDescBy {α : Type} (key : α → ℚ) (z : α) (l : List α)
    (h : z ∈ sortDescBy key l) : z ∈ l := by
  rcases mem_foldl_insertDescBy key z l [] (by simpa [sortDescBy] using h) with h | h
  · simp at h
  · exact h

/-- Every result the rrf fusion returns carries adaptive_k = the adaptive
K of the query (it is attached in the final projection, hybrid.py line 211). -/
theorem rrfFusion_adaptiveK (rrfK : ℕ) (query : String)
    (resultLists : List (List SearchResult)) (limit : ℕ) (r : SearchResult)
    (hr : r ∈ rrfFusion rrfK query resultLists limit) :
    r.adaptiveK = some (adaptiveRrfK rrfK query) := by
  simp only [rrfFusion, List.mem_map] at hr
  obtain ⟨it, _, rfl⟩ := hr
  rfl

/-- The reranker returns (possibly reordered, cross-encoder-scored copies
of) the fused results: every output element keeps the adaptive_k of some
input element. -/
theorem rerank_preserves_adaptiveK (enabled : Bool)
    (modelScore : Option (String → String → ℚ)) (topK : ℕ) (query : String)
    (results : List SearchResult) (r : SearchResult)
    (hr : r ∈ rerank enabled modelScore topK query results) :
    ∃ r0 ∈ results, r.adaptiveK = r0.adaptiveK := by
  by_cases hen : enabled
  · by_cases hres : results.isEmpty
    · refine ⟨r, ?_, rfl⟩
      simpa [rerank, hen, hres] using hr
    · cases hms : modelScore with
      | none =>
        refine ⟨r, ?_, rfl⟩
        simpa [rerank, hen, hres, hms] using hr
      | some f =>
        simp only [rerank, hen, hres, hms, not_true, if_false, Bool.false_eq_true,
          List.mem_append] at hr
        rcases hr with hr | hr
        · have hr2 := mem_sortDescBy (fun r => r.crossEncoderScore.getD 0) r _ hr
          simp only [List.mem_map] at hr2
          obtain ⟨r0, hr0, rfl⟩ := hr2
          exact ⟨r0, List.mem_of_mem_take hr0, rfl⟩
        · exact ⟨r, List.mem_of_mem_drop hr, rfl⟩
  · refine ⟨r, ?_, rfl⟩
    simpa [rerank, hen] using hr

/-- C6: the RRF constant used for fusion is 20 when the query contains a
camelCase or snake_case identifier pattern, else 30 when the query has
fewer than 5 whitespace-separated tokens, else the instance constant whose
configured default is 60; every hybrid result carries that value as
adaptive_k; the query getUserId yields 20 and the query
"how to handle authentication errors across services" yields the default 60. -/
theorem hybrid_adaptive_k (rrfK rerankTopK limit : ℕ) (rerankEnabled : Bool)
    (modelScore : Option (String → String → ℚ))
    (vectorSearchFn keywordSearchFn : ℕ → List SearchResult) (query : String) :
    (∀ r ∈ hybridSearch rrfK rerankEnabled modelScore rerankTopK vectorSearchFn
        keywordSearchFn query limit,
      r.adaptiveK = some (if hasCamelPair query.toList ∨ hasSnakeTriple query.toList then 20
                          else if (pySplitWs query).length < 5 then 30 else rrfK)) ∧
    adaptiveRrfK defaultRrfK "getUserId" = 20 ∧
    adaptiveRrfK defaultRrfK "how to handle authentication errors across services" = 60 ∧
    defaultRrfK = 60 := by
  refine ⟨?_, by decide, by decide, rfl⟩
  intro r hr
  simp only [hybridSearch, List.mem_map] at hr
  obtain ⟨r1, hr1, rfl⟩ := hr
  obtain ⟨r0, hr0, heq⟩ := rerank_preserves_adaptiveK rerankEnabled modelScore rerankTopK
    query _ r1 hr1
  show r1.adaptiveK = _
  rw [heq, rrfFusion_adaptiveK rrfK query _ limit r0 hr0]
  rfl

/-- Vector-search stub for the C6 witness: one matching document. -/
def c6VectorFn : ℕ → List SearchResult :=
  fun _ => [{ id := some "d1", filePath := "a.py", nodeName := "getUserId" }]

/-- Keyword-search stub for the C6 witness: no matches. -/
def c6KeywordFn : ℕ → List SearchResult := fun _ => []

/-- C6 witness: a one-document vector list for the query getUserId, rerank
disabled; the single hybrid result carries adaptive_k = 20. -/
theorem hybrid_adaptive_k_witness :
    (hybridSearch 60 false none 5 c6VectorFn c6KeywordFn "getUserId" 1).map
        (fun r => r.adaptiveK) =
      [some (if hasCamelPair "getUserId".toList ∨ hasSnakeTriple "getUserId".toList then 20
             else if (pySplitWs "getUserId").length < 5 then 30 else 60)] := by
  have h := (hybrid_adaptive_k 60 5 1 false none c6VectorFn c6KeywordFn "getUserId").1
  have hlen : (hybridSearch 60 false none 5 c6VectorFn c6KeywordFn "getUserId" 1).length = 1 := by
    decide
  obtain ⟨x, hx⟩ := List.length_eq_one.mp hlen
  rw [hx]
  simp only [List.map_cons, List.map_nil]
  rw [h x (by rw [hx]; exact List.mem_singleton_self x)]

theorem sumSq_nonneg (v : List ℝ) : 0 ≤ sumSq v := by
  apply List.sum_nonneg
  intro y hy
  simp only [List.mem_map] at hy
  obtain ⟨x, _, rfl⟩ := hy
  positivity

theorem eq_zero_of_sumSq_eq_zero (v : List ℝ) (h : sumSq v = 0) : ∀ x ∈ v, x = 0 := by
  intro x hx
  have hnn : ∀ y ∈ v.map (fun x => x ^ 2), 0 ≤ y := by
    intro y hy
    simp only [List.mem_map] at hy
    obtain ⟨x', _, rfl⟩ := hy
    positivity
  have hle : x ^ 2 ≤ (v.map (fun x => x ^ 2)).sum :=
    List.single_le_sum hnn _ (List.mem_map_of_mem _ hx)
  have hx2 : x ^ 2 = 0 := le_antisymm (by simpa [sumSq] using hle.trans_eq h) (by positivity)
  exact (pow_eq_zero_iff (by norm_num : (2:ℕ) ≠ 0)).mp hx2

theorem sumSq_map_div (v : List ℝ) (c : ℝ) :
    sumSq (v.map (fun x => x / c)) = sumSq v / c ^ 2 := by
  induction v with
  | nil => simp [sumSq]
  | cons x xs ih =>
    simp only [sumSq, List.map_cons, List.sum_cons] at ih ⊢
    rw [div_pow, add_div, ih]

/-- C9 amended: with the backend unavailable, the placeholder embedding of
N texts is an N × D matrix; every row is either exactly unit L2 norm
(squared norm 1) or the all-zero row left by a zero RNG draw.  The output
is a function of the RNG draw, so it is not determined by the texts alone
(see the counterexample theorem). -/
theorem placeholder_embeddings_shape_norms (draw : ℕ → ℕ → ℝ) (count dim : ℕ) :
    (placeholderEmbeddings draw count dim).length = count ∧
    ∀ row ∈ placeholderEmbeddings draw count dim,
      row.length = dim ∧ (sumSq row = 1 ∨ ∀ x ∈ row, x = 0) := by
  constructor
  · simp [placeholderEmbeddings]
  · intro row hrow
    simp only [placeholderEmbeddings, List.mem_map, List.mem_range] at hrow
    obtain ⟨i, _, rfl⟩ := hrow
    constructor
    · simp [normalizeRow]
    · by_cases hz : sumSq ((List.range dim).map (fun j => draw i j)) = 0
      · right
        intro x hx
        simp only [normalizeRow, hz, Real.sqrt_zero, if_pos] at hx
        rw [List.mem_map] at hx
        obtain ⟨y, hy, rfl⟩ := hx
        rw [eq_zero_of_sumSq_eq_zero _ hz _ hy]
        simp
      · left
        have hpos : 0 < sumSq ((List.range dim).map (fun j => draw i j)) :=
          lt_of_le_of_ne (sumSq_nonneg _) (Ne.symm hz)
        have hsne : Real.sqrt (sumSq ((List.range dim).map (fun j => draw i j))) ≠ 0 :=
          ne_of_gt (Real.sqrt_pos.mpr hpos)
        simp only [normalizeRow, if_neg hsne]
        rw [sumSq_map_div, Real.sq_sqrt (sumSq_nonneg _)]
        exact div_self hz

/-- The RNG stream exhibiting non-determinism: the first call draws (3, 4),
the second call draws (1, 0). -/
def c9Stream : ℕ → ℝ :=
  fun n => if n = 0 then 3 else if n = 1 then 4 else if n = 2 then 1 else 0

/-- C9 counterexample: _generate_placeholder_embeddings draws from the
hidden global numpy RNG with no seed derived from the texts, so two
successive generate_embeddings calls on the same one-text list (the second
starting from the RNG state the first left behind) return different
matrices: [[3/5, 4/5]] then [[1, 0]].  The claimed determinism fails. -/
theorem generate_embeddings_not_deterministic :
    (generateEmbeddingsNoModel c9Stream 0 ["t"] 2).1 ≠
      (generateEmbeddingsNoModel c9Stream
        (generateEmbeddingsNoModel c9Stream 0 ["t"] 2).2 ["t"] 2).1 := by
  have s25 : Real.sqrt 25 = 5 := by
    rw [show (25 : ℝ) = 5 ^ 2 by norm_num, Real.sqrt_sq (by norm_num : (0:ℝ) ≤ 5)]
  have epos : (generateEmbeddingsNoModel c9Stream 0 ["t"] 2).2 = 2 := by
    norm_num [generateEmbeddingsNoModel]
  have e1 : (generateEmbeddingsNoModel c9Stream 0 ["t"] 2).1 = [[3 / 5, 4 / 5]] := by
    norm_num [generateEmbeddingsNoModel, placeholderEmbeddings, normalizeRow, sumSq,
      c9Stream, List.range_succ, s25]
  have e2 : (generateEmbeddingsNoModel c9Stream 2 ["t"] 2).1 = [[1, 0]] := by
    norm_num [generateEmbeddingsNoModel, placeholderEmbeddings, normalizeRow, sumSq,
      c9Stream, List.range_succ, Real.sqrt_one]
  rw [e1, epos, e2]
  norm_num [List.cons.injEq]

/-- C9 witness: the zero draw yields the 1 × 2 all-zero matrix, whose
single row falls in the zero-row disjunct. -/
theorem placeholder_embeddings_shape_norms_witness :
    ([(0:ℝ), 0] ∈ placeholderEmbeddings (fun _ _ => 0) 1 2) ∧
    ([(0:ℝ), 0].length = 2 ∧ (sumSq [(0:ℝ), 0] = 1 ∨ ∀ x ∈ [(0:ℝ), 0], x = 0)) := by
  have hout : placeholderEmbeddings (fun _ _ => (0:ℝ)) 1 2 = [[0, 0]] := by
    norm_num [placeholderEmbeddings, normalizeRow, sumSq, List.range_succ, Real.sqrt_zero]
  have hmem : [(0:ℝ), 0] ∈ placeholderEmbeddings (fun _ _ => 0) 1 2 := by
    rw [hout]
    exact List.mem_singleton_self _
  exact ⟨hmem, (placeholder_embeddings_shape_norms (fun _ _ => 0) 1 2).2 _ hmem⟩

theorem indexGo_cancel (cfg : IndexerConfig) (embedFn : List String → List (List ℚ))
    (cancel : ℕ → Bool) (nFiles : ℕ) :
    ∀ (fs : List SrcFile) (k i : ℕ) (st : LoopState),
      k < fs.length → (∀ j, j < k → cancel (i + j) = false) → cancel (i + k) = true →
      indexGo cfg embedFn cancel nFiles i fs st =
        ({ runSteps cfg embedFn nFiles i (fs.take k) st with
            error := some "Cancelled by user" }, true) := by
  intro fs
  induction fs with
  | nil =>
    intro k i st hk _ _
    simp at hk
  | cons f rest ih =>
    intro k i st hk hprev hcancel
    cases k with
    | zero =>
      have hc : cancel i = true := by simpa using hcancel
      simp [indexGo, runSteps, hc]
    | succ k =>
      have hc0 : cancel i = false := by simpa using hprev 0 (Nat.succ_pos k)
      have step := ih k (i + 1) (stepFile cfg embedFn nFiles i f st)
        (by simpa using Nat.lt_of_succ_lt_succ hk)
        (fun j hj => by
          have := hprev (j + 1) (Nat.succ_lt_succ hj)
          simpa [Nat.add_assoc, Nat.add_comm 1 j] using this)
        (by
          have := hcancel
          simpa [Nat.add_assoc, Nat.add_comm 1 k] using this)
      simp only [indexGo, hc0, Bool.false_eq_true, if_false, List.take_succ_cons, runSteps]
      exact step

/-- C1 amended: when the should_cancel callback first answers true at the
poll before file k, the indexer stops there — the result equals the
cancellation result of processing exactly the first k files — and returns
success = false with error = "Cancelled by user" (not "Cancelled": the
source sets the longer string at indexer.py line 113). -/
theorem indexer_cancelled (cfg : IndexerConfig) (embedFn : List String → List (List ℚ))
    (cancel : ℕ → Bool) (files : List SrcFile) (k : ℕ)
    (h1 : k < files.length) (h2 : ∀ j, j < k → cancel j = false) (h3 : cancel k = true) :
    (indexFiles cfg embedFn cancel files).success = false ∧
    (indexFiles cfg embedFn cancel files).error = some "Cancelled by user" ∧
    indexFiles cfg embedFn cancel files =
      mkCancelResult files.length
        { runSteps cfg embedFn files.length 0 (files.take k) {} with
            error := some "Cancelled by user" } := by
  have hne : files.isEmpty = false := by
    cases files with
    | nil => simp at h1
    | cons f rest => rfl
  have hgo := indexGo_cancel cfg embedFn cancel files.length files k 0 {} h1
    (fun j hj => by simpa using h2 j hj) (by simpa using h3)
  have heq : indexFiles cfg embedFn cancel files =
      mkCancelResult files.length
        { runSteps cfg embedFn files.length 0 (files.take k) {} with
            error := some "Cancelled by user" } := by
    unfold indexFiles
    rw [hne]
    simp only [Bool.false_eq_true, if_false, hgo, if_true]
  exact ⟨by rw [heq]; rfl, by rw [heq]; rfl, heq⟩

/-- A file whose read fails, for the C1 concrete runs. -/
def c1File : SrcFile :=
  { relPath := "a.py", size := 10, modifiedAt := "2024-01-01T00:00:00",
    readResult := .error "bad bytes", parseResult := none }

/-- C1 counterexample: with should_cancel answering true at the first poll
of a one-file project, the returned result does carry success = false, but
its error string is "Cancelled by user", not the claimed "Cancelled". -/
theorem indexer_cancelled_error_string :
    (indexFiles {} (fun _ => []) (fun _ => true) [c1File]).success = false ∧
    (indexFiles {} (fun _ => []) (fun _ => true) [c1File]).error =
      some "Cancelled by user" ∧
    (indexFiles {} (fun _ => []) (fun _ => true) [c1File]).error ≠ some "Cancelled" := by
  refine ⟨by decide, by decide, by decide⟩

/-- C1 witness: the cancellation theorem applied to the concrete one-file
project with a callback that cancels at the first poll. -/
theorem indexer_cancelled_witness :
    0 < ([c1File] : List SrcFile).length ∧
    (fun _ : ℕ => true) 0 = true ∧
    (indexFiles {} (fun _ => []) (fun _ => true) [c1File]).success = false ∧
    (indexFiles {} (fun _ => []) (fun _ => true) [c1File]).error =
      some "Cancelled by user" :=
  ⟨by decide, rfl,
    (indexer_cancelled {} (fun _ => []) (fun _ => true) [c1File] 0 (by decide)
      (fun j hj => absurd hj (Nat.not_lt_zero j)) rfl).1,
    (indexer_cancelled {} (fun _ => []) (fun _ => true) [c1File] 0 (by decide)
      (fun j hj => absurd hj (Nat.not_lt_zero j)) rfl).2.1⟩

theorem slidingGo_bounds (linesPerChunk overlapLines : ℕ) (lines : List String)
    (filePath language : String) (offset : ℕ) (hlpc : 1 ≤ linesPerChunk) :
    ∀ (fuel i : ℕ) (c : CodeChunk),
      c ∈ slidingGo linesPerChunk overlapLines lines filePath language offset fuel i →
      c.startLine ≤ c.endLine ∧ c.endLine < offset + lines.length := by
  intro fuel
  induction fuel with
  | zero =>
    intro i c hc
    simp [slidingGo] at hc
  | succ fuel ih =>
    intro i c hc
    simp only [slidingGo] at hc
    by_cases hi : i < lines.length
    · rw [if_pos hi] at hc
      have he1 : i + 1 ≤ min (i + linesPerChunk) lines.length := le_min (by omega) hi
      have he2 : min (i + linesPerChunk) lines.length ≤ lines.length := min_le_right _ _
      by_cases hnext : ((i : ℤ) + linesPerChunk - overlapLines) ≤ i
      · rw [if_pos hnext] at hc
        rw [List.mem_singleton] at hc
        subst hc
        constructor
        · show i + offset ≤ min (i + linesPerChunk) lines.length - 1 + offset
          omega
        · show min (i + linesPerChunk) lines.length - 1 + offset < offset + lines.length
          omega
      · rw [if_neg hnext] at hc
        rw [List.mem_cons] at hc
        rcases hc with hc | hc
        · subst hc
          constructor
          · show i + offset ≤ min (i + linesPerChunk) lines.length - 1 + offset
            omega
          · show min (i + linesPerChunk) lines.length - 1 + offset < offset + lines.length
            omega
        · exact ih _ c hc
    · rw [if_neg hi] at hc
      simp at hc

theorem slidingWindowLines_bounds (chunkSize overlap : ℕ) (filePath language : String)
    (lines : List String) (offset : ℕ) :
    ∀ c ∈ slidingWindowLines chunkSize overlap filePath language lines offset,
      c.startLine ≤ c.endLine ∧ c.endLine < offset + lines.length := by
  intro c hc
  unfold slidingWindowLines at hc
  exact slidingGo_bounds _ _ lines filePath language offset (le_max_right _ 1) _ _ c hc

theorem splitBGo_bounds (chunkSize : ℕ) (node : NodeInfo) (filePath language : String)
    (offset total : ℕ) :
    ∀ (rest : List String) (i curStart : ℕ) (cur : List String) (c : CodeChunk),
      i + rest.length = total → curStart ≤ i → (cur.isEmpty = false → curStart < i) →
      c ∈ splitBGo chunkSize node filePath language offset total i curStart cur rest →
      c.startLine ≤ c.endLine ∧ c.endLine < offset + total := by
  intro rest
  induction rest with
  | nil =>
    intro i curStart cur c hlen hcs hne hc
    simp only [splitBGo] at hc
    by_cases hcur : cur.isEmpty
    · rw [if_pos hcur] at hc
      simp at hc
    · rw [if_neg hcur] at hc
      rw [List.mem_singleton] at hc
      subst hc
      have hlt : curStart < i := hne (by simpa using hcur)
      simp only [List.length_nil, Nat.add_zero] at hlen
      subst hlen
      constructor
      · show offset + curStart ≤ offset + i - 1
        omega
      · show offset + i - 1 < offset + i
        omega
  | cons l rest ih =>
    intro i curStart cur c hlen hcs hne hc
    simp only [splitBGo] at hc
    by_cases hcond : pyStrip l = "" ∧ chunkSize ≤ (joinLines (cur ++ [l])).length
    · rw [if_pos hcond] at hc
      rw [List.mem_cons] at hc
      rcases hc with hc | hc
      · subst hc
        simp only [List.length_cons] at hlen
        constructor
        · show offset + curStart ≤ offset + i
          omega
        · show offset + i < offset + total
          omega
      · refine ih (i + 1) (i + 1) [] c ?_ (le_refl _) (fun h => by simp at h) hc
        simp only [List.length_cons] at hlen
        omega
    · rw [if_neg hcond] at hc
      refine ih (i + 1) curStart (cur ++ [l]) c ?_ (by omega) (fun _ => by omega) hc
      simp only [List.length_cons] at hlen
      omega

theorem splitAtLogicalBoundaries_bounds (chunkSize overlap : ℕ) (node : NodeInfo)
    (filePath language : String) (lines : List String) (offset : ℕ) :
    ∀ c ∈ splitAtLogicalBoundaries chunkSize overlap node filePath language lines offset,
      c.startLine ≤ c.endLine ∧ c.endLine < offset + lines.length := by
  intro c hc
  unfold splitAtLogicalBoundaries at hc
  dsimp only [] at hc
  split at hc
  · exact slidingWindowLines_bounds chunkSize overlap filePath language lines offset c hc
  · exact splitBGo_bounds chunkSize node filePath language offset lines.length lines 0 0 [] c
      (by simp) (le_refl 0) (fun h => by simp at h) hc

theorem processNode_bounds (chunkSize overlap : ℕ) (filePath language : String)
    (lines : List String) (node : NodeInfo)
    (h0 : 0 ≤ node.startLine) (hse : node.startLine ≤ node.endLine) :
    ∀ c ∈ processNode chunkSize overlap filePath language lines node,
      c.startLine ≤ c.endLine ∧ c.endLine < lines.length := by
  intro c hc
  unfold processNode at hc
  dsimp only [] at hc
  split at hc
  case isTrue hguard =>
    obtain ⟨hg1, hg2⟩ := hguard
    have hlen1 : 1 ≤ lines.length := by omega
    have hzst : ((((0 : ℤ) ⊔ (node.startLine - 3)).toNat : ℤ)) = (0 : ℤ) ⊔ (node.startLine - 3) :=
      Int.toNat_of_nonneg (le_max_left _ _)
    have hzen : ((((lines.length : ℤ) - 1) ⊓ (node.endLine + 3)).toNat : ℤ) =
        ((lines.length : ℤ) - 1) ⊓ (node.endLine + 3) := by
      apply Int.toNat_of_nonneg
      apply le_min
      · have : (1 : ℤ) ≤ (lines.length : ℤ) := by exact_mod_cast hlen1
        omega
      · omega
    have hse2 : ((0 : ℤ) ⊔ (node.startLine - 3)).toNat ≤
        (((lines.length : ℤ) - 1) ⊓ (node.endLine + 3)).toNat := by
      have hc1 : ((((0 : ℤ) ⊔ (node.startLine - 3)).toNat : ℤ)) < (lines.length : ℤ) := by
        exact_mod_cast hg1
      rw [hzst] at hc1
      have hcast : ((((0 : ℤ) ⊔ (node.startLine - 3)).toNat : ℤ)) ≤
          ((((lines.length : ℤ) - 1) ⊓ (node.endLine + 3)).toNat : ℤ) := by
        rw [hzst, hzen]
        apply le_min
        · omega
        · apply max_le
          · omega
          · omega
      exact_mod_cast hcast
    split at hc
    case isTrue hsize =>
      have hb := splitAtLogicalBoundaries_bounds chunkSize overlap node filePath language
        (List.take ((((lines.length : ℤ) - 1) ⊓ (node.endLine + 3)).toNat + 1 -
            ((0 : ℤ) ⊔ (node.startLine - 3)).toNat)
          (List.drop (((0 : ℤ) ⊔ (node.startLine - 3)).toNat) lines))
        (((0 : ℤ) ⊔ (node.startLine - 3)).toNat) c hc
      rw [List.length_take, List.length_drop] at hb
      obtain ⟨hb1, hb2⟩ := hb
      exact ⟨hb1, by omega⟩
    case isFalse =>
      rw [List.mem_singleton] at hc
      subst hc
      exact ⟨hse2, hg2⟩
  case isFalse =>
    simp at hc

/-- C8: for every content string and node list in which each node has
0 ≤ start_line ≤ end_line, every chunk produced by chunk_code — through the
semantic path, logical-boundary splitting, or either sliding-window
fallback — satisfies 0 ≤ start_line ≤ end_line < number of lines of the
content. -/
theorem chunk_code_bounds (chunkSize overlap : ℕ) (content filePath language : String)
    (nodes : List NodeInfo)
    (hnodes : ∀ nd ∈ nodes, 0 ≤ nd.startLine ∧ nd.startLine ≤ nd.endLine) :
    ∀ c ∈ chunkCode chunkSize overlap content filePath language nodes,
      0 ≤ c.startLine ∧ c.startLine ≤ c.endLine ∧ c.endLine < (splitLines content).length := by
  intro c hc
  refine ⟨Nat.zero_le _, ?_⟩
  unfold chunkCode at hc
  split at hc
  · have := slidingWindowLines_bounds chunkSize overlap filePath language
      (splitLines content) 0 c hc
    exact ⟨this.1, by omega⟩
  · unfold semanticChunk at hc
    dsimp only [] at hc
    split at hc
    · have := slidingWindowLines_bounds chunkSize overlap filePath language
        (splitLines content) 0 c hc
      exact ⟨this.1, by omega⟩
    · rw [List.mem_flatMap] at hc
      obtain ⟨nd, hnd, hcnd⟩ := hc
      exact processNode_bounds chunkSize overlap filePath language (splitLines content) nd
        (hnodes nd hnd).1 (hnodes nd hnd).2 c hcnd

/-- The content of the C8 witness file. -/
def c8Content : String := "def foo():\n    return 1"

/-- The parser node of the C8 witness file. -/
def c8Node : NodeInfo :=
  { type := "function_definition", name := some "foo", startLine := 0, endLine := 1 }

/-- The chunk the chunker produces for the C8 witness file. -/
def c8Chunk : CodeChunk :=
  { content := c8Content, filePath := "a.py", startLine := 0, endLine := 1,
    language := "python", chunkType := "function_definition", nodeName := some "foo" }

/-- C8 witness: the two-line function file produces exactly one chunk,
spanning lines 0 to 1 of its 2 lines. -/
theorem chunk_code_bounds_witness :
    (∀ nd ∈ [c8Node], 0 ≤ nd.startLine ∧ nd.startLine ≤ nd.endLine) ∧
    c8Chunk ∈ chunkCode 512 50 c8Content "a.py" "python" [c8Node] ∧
    (0 ≤ c8Chunk.startLine ∧ c8Chunk.startLine ≤ c8Chunk.endLine ∧
      c8Chunk.endLine < (splitLines c8Content).length) :=
  ⟨by decide, by decide,
    chunk_code_bounds 512 50 c8Content "a.py" "python" [c8Node] (by decide) c8Chunk
      (by decide)⟩
